import Mathlib

/-!
Verification of the window-tiling core of `win_tiling.py`.

The embedding follows the Python source closely: directions are the four
string enumerants, corners are sorted pairs of directions (sorted by the
underlying strings exactly as Python's `sorted` does), the screen geometry
is built with the same floor divisions, and the transition engine
`move_command` mirrors the source's branch structure, including the fact
that a corner value outside the `cornerstates` table would raise at
runtime (modelled as `none`).
-/

namespace WinTiling

/-- The four direction enumerants; in the source these are the string
literals "up", "down", "left", "right". -/
inductive Direction where
  | up
  | down
  | left
  | right
deriving DecidableEq, Repr, Fintype

/-- The underlying string of a direction, as in the Python source. -/
def dirStr : Direction → String
  | .up => "up"
  | .down => "down"
  | .left => "left"
  | .right => "right"

/-- `Corner = Tuple[Direction, Direction]` from the source (a type
alias, as in the Python `typing` declaration). -/
abbrev Corner := Direction × Direction

/-- `opposites` dictionary from the source. -/
def opposites : Direction → Direction
  | .left => .right
  | .right => .left
  | .up => .down
  | .down => .up

/-- Lexicographic comparison of strings as lists of characters; this is the
order Python's `sorted` uses on the direction strings. -/
def strLtb (a b : String) : Bool := decide (a.data < b.data)

/-- `corner(dir1, dir2)`: a sorted tuple of directions, sorted the way
Python sorts the underlying strings (stable two-element sort). -/
def corner (dir1 dir2 : Direction) : Corner :=
  if strLtb (dirStr dir2) (dirStr dir1) then (dir2, dir1) else (dir1, dir2)

/-- The `cornerstates` dictionary from the source: for each of the four
canonical corner keys, the map from a pressed direction to the direction
to move to; `none` for a corner that is not a key of the dictionary, and
`none` from the inner map for a direction absent from the inner
dictionary. -/
def cornerstates (c : Corner) : Option (Direction → Option Direction) :=
  if c = corner .left .up then
    some fun d => match d with
      | .down => some .left
      | .right => some .up
      | _ => none
  else if c = corner .right .up then
    some fun d => match d with
      | .down => some .right
      | .left => some .up
      | _ => none
  else if c = corner .down .left then
    some fun d => match d with
      | .up => some .left
      | .right => some .down
      | _ => none
  else if c = corner .down .right then
    some fun d => match d with
      | .up => some .right
      | .left => some .down
      | _ => none
  else
    none

/-- The classification of a tiled window: tiled to a half (`dir`) or to a
quarter (`corn`).  The source's windowstate is `Direction | Corner | None`;
the `None` case is `Option.none` of `Option WindowState`. -/
inductive WindowState where
  | dir (d : Direction)
  | corn (c : Corner)
deriving DecidableEq, Repr

/-- The move call that `move_command` issues: `move` tiles to a half
(`move(direction)` in the source), `maximise` tiles to the full screen,
`cornermove` tiles to a quarter, and `noop` is the bare `return` taken
when the window is already tiled to the requested side. -/
inductive MoveAction where
  | noop
  | move (d : Direction)
  | maximise
  | cornermove (c : Corner)
deriving DecidableEq, Repr

/-- `move_command(direction)` from the source, with the windowstate passed
explicitly (the source obtains it from `get_windowstate()`).  Returns
`none` exactly where the Python code would raise a `TypeError`: a corner
windowstate that is not a key of `cornerstates` falls through to
`corner(windowstate, direction)`, which calls `sorted` on a tuple/string
pair. -/
def move_command (windowstate : Option WindowState) (direction : Direction) :
    Option MoveAction :=
  match windowstate with
  | none => some (MoveAction.move direction)
  | some ws =>
    if ws = WindowState.dir direction then
      some MoveAction.noop
    else if ws = WindowState.dir (opposites direction) then
      some MoveAction.maximise
    else
      match ws with
      | WindowState.corn c =>
        match cornerstates c with
        | some directions => some (MoveAction.move ((directions direction).getD direction))
        | none => none
      | WindowState.dir current => some (MoveAction.cornermove (corner current direction))

/-- All four directions, in the insertion order of the source's
`opposites` dictionary. -/
def allDirections : List Direction := [.left, .right, .up, .down]

/-- The nine window states a window can be classified into: untiled,
four halves, four quarters (the quarters being exactly the keys of the
screen's `corneranchors`). -/
def positions9 : List (Option WindowState) :=
  [none,
   some (WindowState.dir .left), some (WindowState.dir .right),
   some (WindowState.dir .up), some (WindowState.dir .down),
   some (WindowState.corn (corner .up .left)), some (WindowState.corn (corner .up .right)),
   some (WindowState.corn (corner .down .left)), some (WindowState.corn (corner .down .right))]

/-- The four canonical corners: the sorted pairs of non-opposite
directions. -/
def validCorners : List Corner :=
  [corner .left .up, corner .right .up, corner .down .left, corner .down .right]

/-- `WH` named tuple: width and height pair. -/
structure WH where
  w : Nat
  h : Nat
deriving DecidableEq, Repr

/-- `XY` named tuple: (x, y) coordinate pair. -/
structure XY where
  x : Nat
  y : Nat
deriving DecidableEq, Repr

/-- The `Screen` dataclass constructor arguments: the monitor rectangle.
All geometric fields are held symbolically; the derived dictionaries are
the functions below, mirroring `Screen.__init__`. -/
structure Screen where
  x : Nat
  y : Nat
  w : Nat
  h : Nat
deriving DecidableEq, Repr

/-- `base_anchors` from `Screen.__init__`: anchors before the screen
offset is added. -/
def base_anchors (s : Screen) : Direction → Nat × Nat
  | .left => (0, 0)
  | .right => (s.w / 2, 0)
  | .up => (0, 0)
  | .down => (0, s.h / 2)

/-- `self.anchors`: the base anchor shifted by the screen origin. -/
def Screen.anchors (s : Screen) (d : Direction) : XY :=
  XY.mk (s.x + (base_anchors s d).1) (s.y + (base_anchors s d).2)

/-- `self.sizes`: half-screen sizes per direction. -/
def Screen.sizes (s : Screen) : Direction → WH
  | .left => WH.mk (s.w / 2) s.h
  | .right => WH.mk (s.w / 2) s.h
  | .up => WH.mk s.w (s.h / 2)
  | .down => WH.mk s.w (s.h / 2)

/-- `self.corneranchors` as an association list, preserving the insertion
order of the source dictionary; anchors are shifted by the screen origin
exactly as in the source comprehension. -/
def Screen.corneranchorsList (s : Screen) : List (Corner × XY) :=
  [(corner .up .left, XY.mk (s.x + 0) (s.y + 0)),
   (corner .up .right, XY.mk (s.x + s.w / 2) (s.y + 0)),
   (corner .down .left, XY.mk (s.x + 0) (s.y + s.h / 2)),
   (corner .down .right, XY.mk (s.x + s.w / 2) (s.y + s.h / 2))]

/-- Dictionary-style lookup into `self.corneranchors`. -/
def Screen.corneranchors (s : Screen) (c : Corner) : Option XY :=
  (s.corneranchorsList.find? (fun e => e.1 = c)).map (·.2)

/-- `self.cornersize`: the single quarter size shared by all corners. -/
def Screen.cornersize (s : Screen) : WH := WH.mk (s.w / 2) (s.h / 2)

/-- `Screen.stateinfo`: the known tilings in iteration order — the four
direction halves (anchors dictionary order LEFT, RIGHT, UP, DOWN), then
the four corners (corneranchors dictionary order). -/
def Screen.stateinfo (s : Screen) : List (WindowState × XY × WH) :=
  (allDirections.map fun d => (WindowState.dir d, s.anchors d, s.sizes d)) ++
    (s.corneranchorsList.map fun e => (WindowState.corn e.1, e.2, s.cornersize))

/-- `get_windowstate()`, with the window's parent geometry passed in:
scan `stateinfo` and return the first state whose (anchor, size) pair
equals the window's (anchor, size); `none` when no entry matches. -/
def get_windowstate (winAnchor : XY) (winSize : WH) (s : Screen) :
    Option WindowState :=
  (s.stateinfo.find? fun e => winAnchor = e.2.1 ∧ winSize = e.2.2).map (·.1)

/-- `_move(x, y, w, h)` from the source, with the decoration dimensions
`(decW, decH)` passed in (the source reads them from the live window):
the rectangle actually sent to `setMoveResizeWindow`.  Integer arithmetic
is over `Int`, with Python's floor division `//` as `Int.fdiv`. -/
def move_impl (x y w h decW decH : Int) : Int × Int × Int × Int :=
  let border_width := Int.fdiv decW 2
  let new_x := x + border_width
  let new_y := y + decH - border_width
  let new_w := w - decW
  let new_h := h - decH
  (new_x, new_y, new_w, new_h)

/-- The `Rect` class fields used by the core (the metadata keyword bag is
dropped); integer-valued, origin top-left. -/
structure Rect where
  x : Int
  y : Int
  width : Int
  height : Int
deriving DecidableEq, Repr

/-- `get_overlapping_area(r1, r2)`: area of the intersection of two
rectangles. -/
def get_overlapping_area (r1 r2 : Rect) : Int :=
  let width := min (r1.x + r1.width) (r2.x + r2.width) - max r1.x r2.x
  let height := min (r1.y + r1.height) (r2.y + r2.height) - max r1.y r2.y
  max width 0 * max height 0

/-- `get_decoration_dimensions()`: parent dimensions minus window
dimensions. -/
def get_decoration_dimensions (window parent : Rect) : Int × Int :=
  (parent.width - window.width, parent.height - window.height)

/-- The rectangle a `MoveAction` passes to `_move` on a given screen:
`move` uses the direction's anchor and size, `maximise` the whole screen
rectangle, `cornermove` the corner's anchor with the shared quarter size;
`noop` issues no call at all. -/
def actionTarget (s : Screen) : MoveAction → Option (XY × WH)
  | MoveAction.noop => none
  | MoveAction.move d => some (s.anchors d, s.sizes d)
  | MoveAction.maximise => some (XY.mk s.x s.y, WH.mk s.w s.h)
  | MoveAction.cornermove c => (s.corneranchors c).map fun a => (a, s.cornersize)

/-- Outcome of running the `consume` loop on a finite queue of events:
either every queued event was handled (`ran`, collecting the events that
were merely logged as unhandled), or an exception escaped a callback and
terminated the loop (`crashed`), leaving the rest of the queue
unprocessed. -/
inductive ConsumeOutcome where
  | ran (unhandled : List String)
  | crashed (err : String)
deriving DecidableEq, Repr

/-- The `consume(queue, callbacks)` loop over a finite queue.  The
source's `try` guards only the `callbacks[event]` lookup: a `KeyError`
(here: `callbacks event = none`) is printed and the loop continues; the
callback itself runs in the `else` branch, outside the handler, so an
exception it raises (here: `Except.error`) propagates and ends the
loop. -/
def consume (callbacks : String → Option (Except String Unit)) :
    List String → ConsumeOutcome
  | [] => ConsumeOutcome.ran []
  | event :: rest =>
    match callbacks event with
    | none =>
      match consume callbacks rest with
      | ConsumeOutcome.ran l => ConsumeOutcome.ran (event :: l)
      | ConsumeOutcome.crashed err => ConsumeOutcome.crashed err
    | some (Except.ok _) => consume callbacks rest
    | some (Except.error err) => ConsumeOutcome.crashed err

/-- The per-corner inward-to-outward table exactly as the spec writes it:
for corner LEFT,UP: DOWN maps to LEFT and RIGHT maps to UP; for corner
RIGHT,UP: DOWN maps to RIGHT and LEFT maps to UP; for corner DOWN,LEFT:
UP maps to LEFT and RIGHT maps to DOWN; for corner DOWN,RIGHT: UP maps to
RIGHT and LEFT maps to DOWN; any direction not a key of the corner's map
passes through unchanged.  This is the spec-side table, to be compared
with the behaviour driven by the source's `cornerstates`. -/
def specCornerMap (c : Corner) (req : Direction) : Direction :=
  if c = corner .left .up then
    match req with
    | .down => .left
    | .right => .up
    | r => r
  else if c = corner .right .up then
    match req with
    | .down => .right
    | .left => .up
    | r => r
  else if c = corner .down .left then
    match req with
    | .up => .left
    | .right => .down
    | r => r
  else if c = corner .down .right then
    match req with
    | .up => .right
    | .left => .down
    | r => r
  else req

/-- A concrete callback table for exercising `consume`: the "left"
pipeline fails the way the real pipeline does when no window is focused
(the EWMH query raises), "right" succeeds, and anything else is not a
key. -/
def demoCallbacks : String → Option (Except String Unit) :=
  fun event =>
    if event = "left" then some (Except.error "no active window")
    else if event = "right" then some (Except.ok ())
    else none

/-- Two list entries with the same image under `f` are the same entry when
the mapped list has pairwise-distinct elements. -/
theorem map_pairwiseNe_inj {A B : Type} (f : A → B) (l : List A)
    (hl : (l.map f).Pairwise (fun a b => a ≠ b)) :
    ∀ a ∈ l, ∀ b ∈ l, f a = f b → a = b := by
  induction l with
  | nil => intro a ha; cases ha
  | cons c t ih =>
    rw [List.map_cons, List.pairwise_cons] at hl
    intro a ha b hb hf
    rcases List.mem_cons.mp ha with rfl | ha'
    · rcases List.mem_cons.mp hb with rfl | hb'
      · rfl
      · exact absurd hf (hl.1 (f b) (List.mem_map_of_mem f hb'))
    · rcases List.mem_cons.mp hb with rfl | hb'
      · exact absurd hf.symm (hl.1 (f a) (List.mem_map_of_mem f ha'))
      · exact ih hl.2 a ha' b hb' hf

/-- C1: the transition engine is deterministic and total over the 9
positions x 4 directions and follows the priority rules exactly: an
untiled window snaps to the requested half; the same direction is a
no-op; the opposite direction maximises; from a corner the requested
direction is looked up in that corner's table (unknown keys pass through
unchanged) and the result is a half; from a half that is neither equal
nor opposite to the request, the result is the quarter
`corner(current, requested)`. -/
theorem transition_engine_c1 (d : Direction) :
    move_command none d = some (MoveAction.move d) ∧
    move_command (some (WindowState.dir d)) d = some MoveAction.noop ∧
    move_command (some (WindowState.dir (opposites d))) d = some MoveAction.maximise ∧
    (∀ c ∈ validCorners,
      move_command (some (WindowState.corn c)) d = some (MoveAction.move (specCornerMap c d))) ∧
    (∀ cur : Direction, cur ≠ d → cur ≠ opposites d →
      move_command (some (WindowState.dir cur)) d = some (MoveAction.cornermove (corner cur d))) ∧
    (∀ p ∈ positions9, (move_command p d).isSome) := by
  revert d
  decide

/-- Witness for C1 at concrete inputs: pressing DOWN in the LEFT,UP
corner, pressing UP from the LEFT half, and totality at the DOWN,RIGHT
corner. -/
theorem transition_engine_c1_witness :
    move_command (some (WindowState.corn (corner .left .up))) .down
        = some (MoveAction.move (specCornerMap (corner .left .up) .down)) ∧
    move_command (some (WindowState.dir .left)) .up
        = some (MoveAction.cornermove (corner .left .up)) ∧
    (move_command (some (WindowState.corn (corner .down .right))) .up).isSome :=
  ⟨(transition_engine_c1 .down).2.2.2.1 (corner .left .up) (by decide),
   (transition_engine_c1 .up).2.2.2.2.1 .left (by decide) (by decide),
   (transition_engine_c1 .up).2.2.2.2.2 (some (WindowState.corn (corner .down .right)))
     (by decide)⟩

/-- C2: for every screen rectangle the constructed `Screen` has exactly
the spec's geometry: half sizes and anchors per direction, the single
shared quarter size, and the four corner anchors. -/
theorem screen_geometry_c2 (x y w h : Nat) :
    (Screen.mk x y w h).anchors .left = XY.mk x y ∧
    (Screen.mk x y w h).anchors .right = XY.mk (x + w / 2) y ∧
    (Screen.mk x y w h).anchors .up = XY.mk x y ∧
    (Screen.mk x y w h).anchors .down = XY.mk x (y + h / 2) ∧
    (Screen.mk x y w h).sizes .left = WH.mk (w / 2) h ∧
    (Screen.mk x y w h).sizes .right = WH.mk (w / 2) h ∧
    (Screen.mk x y w h).sizes .up = WH.mk w (h / 2) ∧
    (Screen.mk x y w h).sizes .down = WH.mk w (h / 2) ∧
    (Screen.mk x y w h).cornersize = WH.mk (w / 2) (h / 2) ∧
    (Screen.mk x y w h).corneranchors (corner .up .left) = some (XY.mk x y) ∧
    (Screen.mk x y w h).corneranchors (corner .up .right) = some (XY.mk (x + w / 2) y) ∧
    (Screen.mk x y w h).corneranchors (corner .down .left) = some (XY.mk x (y + h / 2)) ∧
    (Screen.mk x y w h).corneranchors (corner .down .right)
        = some (XY.mk (x + w / 2) (y + h / 2)) :=
  ⟨rfl, rfl, rfl, rfl, rfl, rfl, rfl, rfl, rfl, rfl, rfl, rfl, rfl⟩

/-- C3: the classifier scans the enumerated positions in order (LEFT,
RIGHT, UP, DOWN, then the four corners), returns `none` exactly when no
(anchor, size) pair equals the window's (origin, size) under exact
integer equality, and for a screen with width and height above 3 the
eight (anchor, size) pairs are pairwise distinct, so a matching window is
classified as the unique matching position. -/
theorem classifier_c3 (s : Screen) (winAnchor : XY) (winSize : WH) :
    s.stateinfo.map (fun e => e.1) =
      [WindowState.dir .left, WindowState.dir .right, WindowState.dir .up, WindowState.dir .down,
       WindowState.corn (corner .up .left), WindowState.corn (corner .up .right),
       WindowState.corn (corner .down .left), WindowState.corn (corner .down .right)] ∧
    (get_windowstate winAnchor winSize s = none ↔
      ∀ e ∈ s.stateinfo, ¬(winAnchor = e.2.1 ∧ winSize = e.2.2)) ∧
    (3 < s.w → 3 < s.h →
      (s.stateinfo.map (fun e => e.2)).Pairwise (fun p q => p ≠ q) ∧
      (∀ e ∈ s.stateinfo, winAnchor = e.2.1 → winSize = e.2.2 →
        get_windowstate winAnchor winSize s = some e.1)) := by
  have hgw : get_windowstate winAnchor winSize s
      = (s.stateinfo.find? (fun e => winAnchor = e.2.1 ∧ winSize = e.2.2)).map
          (fun e => e.1) := rfl
  refine ⟨rfl, ?_, ?_⟩
  · rw [hgw]
    constructor
    · intro hnone e he hmatch
      rcases hf : s.stateinfo.find? (fun e => winAnchor = e.2.1 ∧ winSize = e.2.2) with _ | e'
      · exact List.find?_eq_none.mp hf e he (decide_eq_true hmatch)
      · rw [hf] at hnone
        cases hnone
    · intro hall
      rw [Option.map_eq_none']
      exact List.find?_eq_none.mpr fun x hx h => hall x hx (of_decide_eq_true h)
  · intro hw hh
    have hpw : (s.stateinfo.map (fun e => e.2)).Pairwise (fun p q => p ≠ q) := by
      have hlist : s.stateinfo.map (fun e => e.2) =
          [(XY.mk s.x s.y, WH.mk (s.w / 2) s.h),
           (XY.mk (s.x + s.w / 2) s.y, WH.mk (s.w / 2) s.h),
           (XY.mk s.x s.y, WH.mk s.w (s.h / 2)),
           (XY.mk s.x (s.y + s.h / 2), WH.mk s.w (s.h / 2)),
           (XY.mk s.x s.y, WH.mk (s.w / 2) (s.h / 2)),
           (XY.mk (s.x + s.w / 2) s.y, WH.mk (s.w / 2) (s.h / 2)),
           (XY.mk s.x (s.y + s.h / 2), WH.mk (s.w / 2) (s.h / 2)),
           (XY.mk (s.x + s.w / 2) (s.y + s.h / 2), WH.mk (s.w / 2) (s.h / 2))] := rfl
      rw [hlist]
      show List.Nodup _
      simp only [List.nodup_cons, List.mem_cons, List.not_mem_nil, or_false,
        List.nodup_nil, and_true, not_or, Prod.mk.injEq, XY.mk.injEq, WH.mk.injEq,
        not_and]
      repeat' apply And.intro
      all_goals intros
      all_goals first
        | exact fun h => h
        | omega
    refine ⟨hpw, ?_⟩
    intro e he hA hS
    rw [hgw]
    rcases hf : s.stateinfo.find? (fun e => winAnchor = e.2.1 ∧ winSize = e.2.2) with _ | e'
    · exact absurd (decide_eq_true ⟨hA, hS⟩) (List.find?_eq_none.mp hf e he)
    · have hp' := List.find?_some hf
      simp only [decide_eq_true_eq] at hp'
      have hm' : e' ∈ s.stateinfo := List.mem_of_find?_eq_some hf
      have hpair : e'.2 = e.2 :=
        Prod.ext_iff.mpr ⟨hp'.1.symm.trans hA, hp'.2.symm.trans hS⟩
      have he'e : e' = e := map_pairwiseNe_inj (fun e => e.2) s.stateinfo hpw e' hm' e he hpair
      rw [hf, he'e]
      rfl

/-- Witness for C3: on a 10 x 10 screen at the origin, a window at (0,0)
of size (5,10) is classified as the LEFT half. -/
theorem classifier_c3_witness :
    get_windowstate (XY.mk 0 0) (WH.mk 5 10) (Screen.mk 0 0 10 10)
      = some (WindowState.dir .left) :=
  ((classifier_c3 (Screen.mk 0 0 10 10) (XY.mk 0 0) (WH.mk 5 10)).2.2
      (by decide) (by decide)).2
    (WindowState.dir .left, XY.mk 0 0, WH.mk 5 10) (by decide) rfl rfl

/-- C4 (amended): only an unrecognized command is recoverable — the
consumer logs it and proceeds to the next queued command; when the
pipeline of a recognized command raises, the exception propagates out of
the `consume` loop and terminates it, leaving the rest of the queue
unprocessed. -/
theorem consume_behaviour_c4 (callbacks : String → Option (Except String Unit))
    (q : List String) :
    ((∀ e ∈ q, callbacks e = none) → consume callbacks q = ConsumeOutcome.ran q) ∧
    (∀ event rest err, q = event :: rest →
      callbacks event = some (Except.error err) →
      consume callbacks q = ConsumeOutcome.crashed err) := by
  constructor
  · induction q with
    | nil => intro _; rfl
    | cons e t ih =>
      intro hall
      have he : callbacks e = none := hall e (List.mem_cons_self e t)
      have ht := ih fun x hx => hall x (List.mem_cons_of_mem e hx)
      simp [consume, he, ht]
  · rintro event rest err rfl herr
    simp [consume, herr]

/-- Counterexample for C4 as stated: with the "left" pipeline failing the
way it does when no window is focused, a queue of two commands crashes
the consumer on the first command and the second is never processed —
the failure terminates the consumer loop. -/
theorem consume_crash_c4_counterexample :
    consume demoCallbacks ["left", "right"] = ConsumeOutcome.crashed "no active window" :=
  rfl

/-- Witness for C4 (amended) at concrete inputs: a failing recognized
command crashes the loop; an unrecognized command is logged and the loop
survives. -/
theorem consume_behaviour_c4_witness :
    consume demoCallbacks ["left"] = ConsumeOutcome.crashed "no active window" ∧
    consume demoCallbacks ["bogus"] = ConsumeOutcome.ran ["bogus"] :=
  ⟨(consume_behaviour_c4 demoCallbacks ["left"]).2 "left" [] "no active window" rfl rfl,
   (consume_behaviour_c4 demoCallbacks ["bogus"]).1
     (fun e he => by rcases List.mem_singleton.mp he with rfl; rfl)⟩

/-- C5: requesting the direction a window is already tiled to issues no
move call at all (the `noop` action has no target rectangle), and over
the whole 9 positions x 4 directions input space this is the only pair
that produces the do-nothing outcome. -/
theorem noop_only_c5 (d : Direction) (s : Screen) :
    move_command (some (WindowState.dir d)) d = some MoveAction.noop ∧
    actionTarget s MoveAction.noop = none ∧
    (∀ p ∈ positions9, ∀ req : Direction,
      move_command p req = some MoveAction.noop → p = some (WindowState.dir req)) := by
  refine ⟨by cases d <;> decide, rfl, ?_⟩
  intro p hp req
  fin_cases hp <;> revert req <;> decide

/-- Witness for C5 at concrete inputs: the LEFT half with LEFT requested
is the no-op pair, and the uniqueness direction applied at a concrete
position. -/
theorem noop_only_c5_witness :
    some (WindowState.dir Direction.left) = some (WindowState.dir Direction.left) :=
  (noop_only_c5 .up (Screen.mk 0 0 10 10)).2.2 (some (WindowState.dir .left))
    (by decide) .left (by decide)

/-- C6: pressing the mirror direction of the current half maximises: the
result is the `maximise` action, whose target is the whole screen
rectangle. -/
theorem mirror_law_c6 (d : Direction) (s : Screen) :
    move_command (some (WindowState.dir (opposites d))) d = some MoveAction.maximise ∧
    actionTarget s MoveAction.maximise = some (XY.mk s.x s.y, WH.mk s.w s.h) :=
  ⟨by cases d <;> decide, rfl⟩

/-- C7: the rectangle actually issued to the display applies the
decoration insets with exact integer arithmetic and no clamping:
x + floor(iw/2), y + ih - floor(iw/2), w - iw, h - ih. -/
theorem move_arith_c7 (x y w h iw ih : Int) :
    move_impl x y w h iw ih = (x + Int.fdiv iw 2, y + ih - Int.fdiv iw 2, w - iw, h - ih) :=
  rfl

/-- C8: per axis the two half sizes sum to the screen extent up to one
pixel, each half spans the full screen in the orthogonal axis, and four
times the quarter area equals the screen area minus exactly the
floor-rounding loss. -/
theorem screen_partition_c8 (s : Screen) :
    ((s.sizes .left).w + (s.sizes .right).w = s.w ∨
      (s.sizes .left).w + (s.sizes .right).w = s.w - 1) ∧
    ((s.sizes .up).h + (s.sizes .down).h = s.h ∨
      (s.sizes .up).h + (s.sizes .down).h = s.h - 1) ∧
    (s.sizes .left).h = s.h ∧ (s.sizes .right).h = s.h ∧
    (s.sizes .up).w = s.w ∧ (s.sizes .down).w = s.w ∧
    4 * (s.cornersize.w * s.cornersize.h) = (s.w - s.w % 2) * (s.h - s.h % 2) := by
  refine ⟨?_, ?_, rfl, rfl, rfl, rfl, ?_⟩
  · simp only [Screen.sizes]
    omega
  · simp only [Screen.sizes]
    omega
  · simp only [Screen.cornersize]
    have hw : s.w - s.w % 2 = 2 * (s.w / 2) := by omega
    have hh : s.h - s.h % 2 = 2 * (s.h / 2) := by omega
    rw [hw, hh]
    ring

/-- C9: corner construction is canonicalizing (symmetric in its
arguments) and closed over the 4 canonical corners: the keys of
`cornerstates`, the keys of the screen's corner anchors, and any corner
built from a half and a non-equal, non-opposite request all lie in the
4 canonical pairs, and no canonical pair consists of opposite
directions. -/
theorem corner_canonical_c9 :
    (∀ d1 d2 : Direction, corner d1 d2 = corner d2 d1) ∧
    (∀ c : Corner, (cornerstates c).isSome → c ∈ validCorners) ∧
    (∀ s : Screen, s.corneranchorsList.map (fun e => e.1) = validCorners) ∧
    (∀ d1 d2 : Direction, d1 ≠ d2 → d2 ≠ opposites d1 → corner d1 d2 ∈ validCorners) ∧
    (∀ c ∈ validCorners, c.1 ≠ opposites c.2) :=
  ⟨by decide, by decide, fun s => rfl, by decide, by decide⟩

/-- Witness for C9 at concrete inputs: the LEFT,UP corner is canonical,
both as built from LEFT and UP and as a key of `cornerstates`, and its
two directions are not opposite. -/
theorem corner_canonical_c9_witness :
    corner .left .up ∈ validCorners ∧ (corner .left .up).1 ≠ opposites (corner .left .up).2 :=
  ⟨corner_canonical_c9.2.2.2.1 .left .up (by decide) (by decide),
   corner_canonical_c9.2.2.2.2 (corner .left .up)
     (corner_canonical_c9.2.1 (corner .left .up) (by decide))⟩

/-- C10: the rectangle-intersection area is symmetric in its arguments
and never negative, and it is zero whenever the rectangles do not
overlap. -/
theorem overlap_area_c10 (r1 r2 : Rect) :
    get_overlapping_area r1 r2 = get_overlapping_area r2 r1 ∧
    0 ≤ get_overlapping_area r1 r2 ∧
    ((r1.x + r1.width ≤ r2.x ∨ r2.x + r2.width ≤ r1.x ∨
      r1.y + r1.height ≤ r2.y ∨ r2.y + r2.height ≤ r1.y) →
      get_overlapping_area r1 r2 = 0) := by
  refine ⟨?_, ?_, ?_⟩
  · simp only [get_overlapping_area]
    rw [min_comm (r1.x + r1.width) (r2.x + r2.width), max_comm r1.x r2.x,
      min_comm (r1.y + r1.height) (r2.y + r2.height), max_comm r1.y r2.y]
  · exact mul_nonneg (le_max_right _ _) (le_max_right _ _)
  · intro hdisj
    simp only [get_overlapping_area]
    rcases hdisj with hd | hd | hd | hd
    · have hx : max (min (r1.x + r1.width) (r2.x + r2.width) - max r1.x r2.x) 0 = 0 := by
        omega
      rw [hx, zero_mul]
    · have hx : max (min (r1.x + r1.width) (r2.x + r2.width) - max r1.x r2.x) 0 = 0 := by
        omega
      rw [hx, zero_mul]
    · have hy : max (min (r1.y + r1.height) (r2.y + r2.height) - max r1.y r2.y) 0 = 0 := by
        omega
      rw [hy, mul_zero]
    · have hy : max (min (r1.y + r1.height) (r2.y + r2.height) - max r1.y r2.y) 0 = 0 := by
        omega
      rw [hy, mul_zero]

/-- Witness for C10 at concrete inputs: two horizontally separated 2 x 2
rectangles have intersection area zero. -/
theorem overlap_area_c10_witness :
    get_overlapping_area (Rect.mk 0 0 2 2) (Rect.mk 5 0 2 2) = 0 :=
  (overlap_area_c10 (Rect.mk 0 0 2 2) (Rect.mk 5 0 2 2)).2.2 (Or.inl (by decide))

end WinTiling
